import Mathlib

/-!
Verification of the PHY 132 Local Course Hub (`app.py`).

This file gives a shallow embedding of the persistence, migration and
attachment-handling logic of `app.py` and proves (or refutes) the
specification's claims about it.

Modelling conventions:
* Python dictionaries holding JSON data are modelled by the inductive `Jv`
  (objects are ordered association lists, as parsed by `json.load`).
* The application's typed document (`db`) is modelled by the structures
  `Course`, `Module`, `Sect`, `Page`, `FileRec`, `Db`; dictionary keys the
  code may leave absent are `Option` fields.
* The filesystem is a map `String → Option FileData`; a file's content is
  either well-formed JSON text (`FileData.jsonData j`, carrying the parsed
  value, standing for `json.dump` output) or text that fails to parse
  (`FileData.rawData s`, on which `json.load` raises).  Stateful functions
  return the list of filesystem operations (`FsOp`) they perform, and
  `applyOps` runs such a list against a filesystem; exceptions are
  `Except`/`Option` failures.
* `timestamp()` (wall clock), `uuid4().hex` (randomness) and the bytes read
  from uploads are passed in as parameters.
-/

set_option autoImplicit false

namespace Phy132

/-! ## String helpers (Python `str.strip`, `in`, `pathlib.Path.suffix`) -/

/-- Characters removed by Python's `str.strip()` with no argument. -/
def isPySpace (c : Char) : Bool :=
  c = ' ' || c = '\t' || c = '\n' || c = Char.ofNat 13 || c = Char.ofNat 11 || c = Char.ofNat 12

/-- Python `s.strip()`: drop leading and trailing whitespace. -/
def pyStrip (s : String) : String :=
  String.mk (((s.data.dropWhile isPySpace).reverse.dropWhile isPySpace).reverse)

/-- Does `hay` start with `needle`? -/
def startsWithSeq : List Char → List Char → Bool
  | [], _ => true
  | _ :: _, [] => false
  | a :: as, b :: bs => a = b && startsWithSeq as bs

/-- Python `needle in hay` for strings: substring containment. -/
def hasSubSeq (needle : List Char) : List Char → Bool
  | [] => needle.isEmpty
  | c :: cs => startsWithSeq needle (c :: cs) || hasSubSeq needle cs

/-- Python `pathlib.Path(nm).suffix`: the final component's extension,
from its last dot, provided that dot is neither the component's first nor
last character. -/
def pySuffix (nm : String) : String :=
  let comp := (nm.data.reverse.takeWhile (fun c => c ≠ '/')).reverse
  let revAfter := comp.reverse.takeWhile (fun c => c ≠ '.')
  if revAfter.length = comp.length then ""
  else if revAfter.length = 0 then ""
  else if comp.length = revAfter.length + 1 then ""
  else String.mk ('.' :: revAfter.reverse)

/-- Python truthiness of an optional string (`None` and `""` are falsy). -/
def strOptTruthy : Option String → Bool
  | none => false
  | some s => !(s == "")

/-! ## JSON values and the filesystem model -/

/-- A JSON value as produced by Python's `json.load` (dicts are ordered
association lists). -/
inductive Jv where
  | null
  | bool (b : Bool)
  | num (n : Int)
  | str (s : String)
  | arr (xs : List Jv)
  | obj (kvs : List (String × Jv))

/-- First value stored under key `k` (Python dict lookup). -/
def getKey (kvs : List (String × Jv)) (k : String) : Option Jv :=
  match kvs with
  | [] => none
  | (k', v) :: rest => if k' = k then some v else getKey rest k

/-- Python dict assignment `d[k] = v`: replace in place, else append. -/
def setKey (kvs : List (String × Jv)) (k : String) (v : Jv) : List (String × Jv) :=
  match kvs with
  | [] => [(k, v)]
  | (k', v') :: rest => if k' = k then (k, v) :: rest else (k', v') :: setKey rest k v

/-- Python `key in value`: key lookup for dicts, membership for lists,
substring for strings; `none` models the `TypeError` raised on other types. -/
def pyContains (key : String) (v : Jv) : Option Bool :=
  match v with
  | .obj kvs => some (kvs.any (fun kv => kv.1 == key))
  | .arr xs => some (xs.any (fun x => match x with | .str s => s == key | _ => false))
  | .str s => some (hasSubSeq key.data s.data)
  | _ => none

/-- Content of a file on disk: either text that parses as JSON (carrying the
parsed value) or text on which `json.load` raises. -/
inductive FileData where
  | jsonData (j : Jv)
  | rawData (s : String)

/-- The document filesystem: path → content. -/
def FS : Type := String → Option FileData

/-- The upload filesystem: path → bytes. -/
def UploadFS : Type := String → Option (List Nat)

/-- A single filesystem operation.  `save_db` only ever truncates and writes
the live path; `copyFile`/`replaceFile` exist so that the backup/atomic-replace
behaviour the spec describes is statable. -/
inductive FsOp where
  | truncate (p : String)
  | writeAll (p : String) (c : FileData)
  | copyFile (src dst : String)
  | replaceFile (src dst : String)

def setFs (fs : FS) (p : String) (c : Option FileData) : FS :=
  fun q => if q = p then c else fs q

def applyOp (fs : FS) : FsOp → FS
  | .truncate p => setFs fs p (some (.rawData ""))
  | .writeAll p c => setFs fs p (some c)
  | .copyFile src dst =>
      match fs src with
      | some c => setFs fs dst (some c)
      | none => fs
  | .replaceFile src dst =>
      match fs src with
      | some c => setFs (setFs fs dst (some c)) src none
      | none => fs

def applyOps (fs : FS) (ops : List FsOp) : FS := ops.foldl applyOp fs

def isReplaceOp : FsOp → Bool
  | .replaceFile _ _ => true
  | _ => false

/-- The paths an operation writes to. -/
def opWrites : FsOp → List String
  | .truncate p => [p]
  | .writeAll p _ => [p]
  | .copyFile _ dst => [dst]
  | .replaceFile src dst => [src, dst]

/-! ## The typed document (`db` dictionary of `app.py`) -/

/-- An attachment record (the `meta` dict built by `save_upload_to_section`;
legacy records migrated from pages may lack any of these keys, hence
`Option` everywhere). -/
structure FileRec where
  name : Option String
  path : Option String
  size : Option Int
  uploaded_at : Option String
  hash : Option String
deriving DecidableEq, Repr

/-- A legacy page (the removed sub-level flattened by the migration). -/
structure Page where
  title : Option String
  content : Option String
  files : Option (List FileRec)
deriving DecidableEq, Repr

/-- A section dict: `id`, `title` always present; `notes`, `files` created by
`add_section` but possibly absent in legacy data; `pages` is the legacy key. -/
structure Sect where
  id : String
  title : String
  notes : Option String
  files : Option (List FileRec)
  pages : Option (List Page)
deriving DecidableEq, Repr

/-- A module dict; `sections` read via `m.get("sections", [])` in the
migration, hence optional. -/
structure Module where
  id : String
  title : String
  sections : Option (List Sect)
deriving DecidableEq, Repr

/-- The `course` dict. -/
structure Course where
  name : String
  instructor : String
  updated_at : Option String
deriving DecidableEq, Repr

/-- The whole document (`db`). -/
structure Db where
  course : Course
  modules : List Module
  version : Option Int
deriving DecidableEq, Repr

/-- `DEFAULT_DB` of `app.py` (seed used on first run). -/
def DEFAULT_DB : Db :=
  { course :=
      { name := "PHY 132: College Physics II"
        instructor := "Prof. Zakeri • m.zakeri@eku.edu"
        updated_at := none }
    modules :=
      [ { id := "M0", title := "Module 0: Foundations", sections := some [] }
      , { id := "M1", title := "Module 1: Electrostatics", sections := some [] }
      , { id := "M2", title := "Module 2: Electric Current & Circuits", sections := some [] }
      , { id := "M3", title := "Module 3: Electromagnetism", sections := some [] }
      , { id := "M4", title := "Module 4: Optics", sections := some [] } ]
    version := some 2 }

/-! ## JSON encoding of the document (what `json.dump` writes) and the
decoder certifying that the encoding is faithful -/

/-- Encode an optional string-valued dict entry (key present iff `some`). -/
def encOptStr (k : String) (o : Option String) : List (String × Jv) :=
  match o with
  | some s => [(k, Jv.str s)]
  | none => []

/-- Encode an optional integer-valued dict entry. -/
def encOptInt (k : String) (o : Option Int) : List (String × Jv) :=
  match o with
  | some n => [(k, Jv.num n)]
  | none => []

def encodeFileRec (f : FileRec) : Jv :=
  .obj (encOptStr "name" f.name ++ encOptStr "path" f.path ++ encOptInt "size" f.size
    ++ encOptStr "uploaded_at" f.uploaded_at ++ encOptStr "hash" f.hash)

def encodePage (p : Page) : Jv :=
  .obj (encOptStr "title" p.title ++ encOptStr "content" p.content
    ++ (match p.files with
        | some l => [("files", Jv.arr (l.map encodeFileRec))]
        | none => []))

def encodeSect (s : Sect) : Jv :=
  .obj ([("id", Jv.str s.id), ("title", Jv.str s.title)]
    ++ encOptStr "notes" s.notes
    ++ (match s.files with
        | some l => [("files", Jv.arr (l.map encodeFileRec))]
        | none => [])
    ++ (match s.pages with
        | some l => [("pages", Jv.arr (l.map encodePage))]
        | none => []))

def encodeModule (m : Module) : Jv :=
  .obj ([("id", Jv.str m.id), ("title", Jv.str m.title)]
    ++ (match m.sections with
        | some l => [("sections", Jv.arr (l.map encodeSect))]
        | none => []))

def encodeCourse (c : Course) : Jv :=
  .obj [("name", Jv.str c.name), ("instructor", Jv.str c.instructor),
    ("updated_at", match c.updated_at with | some s => Jv.str s | none => Jv.null)]

def encodeDb (d : Db) : Jv :=
  .obj ([("course", encodeCourse d.course), ("modules", Jv.arr (d.modules.map encodeModule))]
    ++ encOptInt "version" d.version)

/-- Read an optional string field of a dict (absent ↦ `none`). -/
def decOptStr (kvs : List (String × Jv)) (k : String) : Option (Option String) :=
  match getKey kvs k with
  | none => some none
  | some (.str s) => some (some s)
  | some _ => none

/-- Read an optional integer field of a dict. -/
def decOptInt (kvs : List (String × Jv)) (k : String) : Option (Option Int) :=
  match getKey kvs k with
  | none => some none
  | some (.num n) => some (some n)
  | some _ => none

/-- Decode every element of a JSON array, failing if any element fails. -/
def decodeList {A : Type} (f : Jv → Option A) : List Jv → Option (List A)
  | [] => some []
  | x :: xs => do
      let a ← f x
      let as ← decodeList f xs
      pure (a :: as)

/-- Read a required string field of a dict. -/
def decStr (kvs : List (String × Jv)) (k : String) : Option String :=
  match getKey kvs k with
  | some (.str s) => some s
  | _ => none

def decodeFileRec : Jv → Option FileRec
  | .obj kvs => do
      let name ← decOptStr kvs "name"
      let path ← decOptStr kvs "path"
      let size ← decOptInt kvs "size"
      let up ← decOptStr kvs "uploaded_at"
      let h ← decOptStr kvs "hash"
      pure ⟨name, path, size, up, h⟩
  | _ => none

def decodePage : Jv → Option Page
  | .obj kvs => do
      let title ← decOptStr kvs "title"
      let content ← decOptStr kvs "content"
      let files ←
        match getKey kvs "files" with
        | none => some none
        | some (.arr xs) => (decodeList decodeFileRec xs).map (fun l => some l)
        | some _ => none
      pure ⟨title, content, files⟩
  | _ => none

def decodeSect : Jv → Option Sect
  | .obj kvs => do
      let i ← decStr kvs "id"
      let t ← decStr kvs "title"
      let notes ← decOptStr kvs "notes"
      let files ←
        match getKey kvs "files" with
        | none => some none
        | some (.arr xs) => (decodeList decodeFileRec xs).map (fun l => some l)
        | some _ => none
      let pages ←
        match getKey kvs "pages" with
        | none => some none
        | some (.arr xs) => (decodeList decodePage xs).map (fun l => some l)
        | some _ => none
      pure ⟨i, t, notes, files, pages⟩
  | _ => none

def decodeModule : Jv → Option Module
  | .obj kvs => do
      let i ← decStr kvs "id"
      let t ← decStr kvs "title"
      let ss ←
        match getKey kvs "sections" with
        | none => some none
        | some (.arr xs) => (decodeList decodeSect xs).map (fun l => some l)
        | some _ => none
      pure ⟨i, t, ss⟩
  | _ => none

def decodeCourse : Jv → Option Course
  | .obj kvs => do
      let n ← decStr kvs "name"
      let ins ← decStr kvs "instructor"
      let up ←
        match getKey kvs "updated_at" with
        | none => some none
        | some .null => some none
        | some (.str s) => some (some s)
        | some _ => none
      pure ⟨n, ins, up⟩
  | _ => none

def decodeDb : Jv → Option Db
  | .obj kvs => do
      let c ←
        match getKey kvs "course" with
        | some cj => decodeCourse cj
        | none => none
      let ms ←
        match getKey kvs "modules" with
        | some (.arr xs) => decodeList decodeModule xs
        | _ => none
      let v ← decOptInt kvs "version"
      pure ⟨c, ms, v⟩
  | _ => none

/-! ## Persistence gateway (`save_db`, `load_db`) -/

def DB_PATH : String := "data/modules.json"

def UPLOAD_DIR : String := "uploads"

/-- Stamp `db["course"]["updated_at"] = timestamp()` (first line of `save_db`;
the wall-clock string is the parameter `t`). -/
def stampDb (db : Db) (t : String) : Db :=
  { db with course := { db.course with updated_at := some t } }

/-- `save_db(db)`: stamp `updated_at`, then `open(DB_PATH, "w")` (truncating
the live file in place) and `json.dump` the whole document into it.  Returns
the mutated document and the filesystem operations performed. -/
def save_db (db : Db) (t : String) : Db × List FsOp :=
  let db' := stampDb db t
  (db', [FsOp.truncate DB_PATH, FsOp.writeAll DB_PATH (FileData.jsonData (encodeDb db'))])

/-- `db["course"]["updated_at"] = t` performed on a raw parsed value, as
`save_db` does when handed the result of `json.loads` (backup import path).
`none` models the `TypeError` raised when the value or its `course` entry is
not a dict. -/
def stampJv (j : Jv) (t : String) : Option Jv :=
  match j with
  | .obj kvs =>
      match getKey kvs "course" with
      | some (.obj ckvs) =>
          some (.obj (setKey kvs "course" (.obj (setKey ckvs "updated_at" (.str t)))))
      | _ => none
  | _ => none

/-- `save_db` on a raw parsed value (backup import path): stamp, truncate,
dump. -/
def save_db_jv (j : Jv) (t : String) : Option (Jv × List FsOp) :=
  match stampJv j t with
  | some j' => some (j', [FsOp.truncate DB_PATH, FsOp.writeAll DB_PATH (FileData.jsonData j')])
  | none => none

/-- `load_db()`: if no document file exists, stamp and save `DEFAULT_DB` and
return it; otherwise `json.load` the file, raising (`Except.error`) if its
content does not parse.  Returns the parsed value (no validation) together
with the operations performed. -/
def load_db (fs : FS) (t : String) : Except Unit (Jv × List FsOp) :=
  match fs DB_PATH with
  | none =>
      let db := stampDb DEFAULT_DB t
      let r := save_db db t
      .ok (encodeDb r.1, r.2)
  | some (.jsonData j) => .ok (j, [])
  | some (.rawData _) => .error ()

/-! ## Backup import (`sidebar_backup_restore`, import branch) -/

inductive ImportOutcome where
  | imported
  | invalidStructure
  | importFailed
deriving DecidableEq, Repr

/-- The import branch of `sidebar_backup_restore`: parse the uploaded bytes
(`up`), require `"modules" in newdb and "course" in newdb`, and replace the
live document via `save_db(newdb)`; any exception is caught and reported as
a failure message.  Returns the filesystem operations performed and the
reported outcome. -/
def sidebar_backup_restore (up : FileData) (t : String) : List FsOp × ImportOutcome :=
  match up with
  | .rawData _ => ([], .importFailed)
  | .jsonData j =>
      match pyContains "modules" j with
      | none => ([], .importFailed)
      | some false => ([], .invalidStructure)
      | some true =>
          match pyContains "course" j with
          | none => ([], .importFailed)
          | some false => ([], .invalidStructure)
          | some true =>
              match save_db_jv j t with
              | some r => (r.2, .imported)
              | none => ([], .importFailed)

/-! ## Content hashing and the attachment store (`save_upload_to_section`) -/

/-- `file_sha256`: `hashlib.sha256(data).hexdigest()`.  The hash library is
external to the repository; it is modelled as a deterministic digest of the
bytes rendered as a (never empty) decimal string. -/
def file_sha256 (data : List Nat) : String :=
  toString (data.foldl (fun h b => h * 257 + b + 1) 7)

inductive StoreStatus where
  | saved
  | duplicate
  | keyError
deriving DecidableEq, Repr

/-- Result of `save_upload_to_section`: the updated section, the returned
`(meta, status)` pair, and the byte writes performed on the upload
directory.  `keyError` models the `KeyError` raised by
`section["files"].append` when the section has no `files` key (the disk
write has already happened at that point). -/
structure StoreResult where
  sec : Sect
  meta : Option FileRec
  status : StoreStatus
  writes : List (String × List Nat)
deriving DecidableEq, Repr

/-- `save_upload_to_section(section, upload, subdir)`; `data` is
`upload.read()`, `uploadName` is `upload.name`, `u` is `uuid4().hex` and `t`
is `timestamp()`. -/
def save_upload_to_section (s : Sect) (data : List Nat) (uploadName : String)
    (u : String) (t : String) (subdir : String) : StoreResult :=
  let fhash := file_sha256 data
  if (s.files.getD []).any (fun f => f.hash == some fhash) then
    { sec := s, meta := none, status := .duplicate, writes := [] }
  else
    let subpath := if subdir == "" then UPLOAD_DIR else UPLOAD_DIR ++ "/" ++ subdir
    let ext := pySuffix uploadName
    let unique := u ++ ext
    let dest := subpath ++ "/" ++ unique
    let meta : FileRec :=
      { name := some uploadName, path := some dest, size := some (Int.ofNat data.length)
        uploaded_at := some t, hash := some fhash }
    match s.files with
    | some l =>
        { sec := { s with files := some (l ++ [meta]) }, meta := some meta
          status := .saved, writes := [(dest, data)] }
    | none => { sec := s, meta := none, status := .keyError, writes := [(dest, data)] }

/-- Number of attachment records in a list carrying the content hash `h`. -/
def countWithHash (l : List FileRec) (h : String) : Nat :=
  (l.filter (fun f => f.hash == some h)).length

/-! ## Rename operations (inline in `edit_tools`) -/

/-- `module["title"] = new_title.strip() or module["title"]`. -/
def rename_module_title (m : Module) (newTitle : String) : Module :=
  { m with title := if pyStrip newTitle = "" then m.title else pyStrip newTitle }

/-- `section["title"] = sec_title.strip() or section["title"]`. -/
def rename_section_title (s : Sect) (newTitle : String) : Sect :=
  { s with title := if pyStrip newTitle = "" then s.title else pyStrip newTitle }

/-! ## Legacy-page migration (`migrate_pages_to_section_files`) -/

/-- Body of the `for f in p.get("files", []) or []` loop: compute the hash
(lazily from disk when absent and the record's path exists), skip the record
if a file with that hash is already in the section's list, otherwise append
a copy with the hash filled in.  The accumulator is the section's `files`
list so far plus the `changed` flag. -/
def migrate_page_file (ufs : UploadFS) (acc : List FileRec × Bool) (f : FileRec) :
    List FileRec × Bool :=
  let fhash0 := f.hash
  let fhash :=
    if !strOptTruthy fhash0 && strOptTruthy f.path && (ufs (f.path.getD "")).isSome then
      some (file_sha256 ((ufs (f.path.getD "")).getD []))
    else fhash0
  if strOptTruthy fhash && acc.1.any (fun ff => ff.hash == fhash) then
    acc
  else
    (acc.1 ++ [{ f with hash := fhash }], true)

/-- Body of the `for p in pages` loop: append the page's titled content to
the notes (when non-empty), then move its files.  The accumulator is
`(notes, files, changed)`. -/
def migrate_page (ufs : UploadFS) (acc : String × List FileRec × Bool) (p : Page) :
    String × List FileRec × Bool :=
  let ptitle := p.title.getD "Untitled"
  let pcontent := p.content.getD ""
  let state :=
    if pcontent == "" then (acc.1, acc.2.2)
    else (acc.1 ++ "\n\n### " ++ ptitle ++ "\n\n" ++ pcontent ++ "\n", true)
  let r := (p.files.getD []).foldl (migrate_page_file ufs) (acc.2.1, state.2)
  (state.1, r.1, r.2)

/-- Per-section body of the migration: ensure `files` and `notes` exist,
then flatten the legacy pages (note the `continue` when `pages` is falsy:
a present-but-empty `pages` key is left in place). -/
def migrate_section (ufs : UploadFS) (s : Sect) : Sect × Bool :=
  let filesSt := match s.files with
    | some l => (l, false)
    | none => (([] : List FileRec), true)
  let notesSt := match s.notes with
    | some n => (n, filesSt.2)
    | none => ("", true)
  let pages := s.pages.getD []
  if pages.isEmpty then
    ({ s with files := some filesSt.1, notes := some notesSt.1 }, notesSt.2)
  else
    let r := pages.foldl (migrate_page ufs) (notesSt.1, filesSt.1, notesSt.2)
    ({ s with notes := some r.1, files := some r.2.1, pages := none }, true)

/-- Per-module body: run the section migration over `m.get("sections", [])`. -/
def migrate_module (ufs : UploadFS) (m : Module) : Module × Bool :=
  match m.sections with
  | none => (m, false)
  | some ss =>
      let rs := ss.map (migrate_section ufs)
      ({ m with sections := some (rs.map Prod.fst) }, rs.any Prod.snd)

/-- The in-memory part of the migration over `db.get("modules", [])`. -/
def migrate_db (db : Db) (ufs : UploadFS) : Db × Bool :=
  let rs := db.modules.map (migrate_module ufs)
  ({ db with modules := rs.map Prod.fst }, rs.any Prod.snd)

/-- `migrate_pages_to_section_files(db)`: migrate in memory, and `save_db`
(stamping `updated_at`) exactly when something changed.  Returns the
document as left in memory and the filesystem operations performed. -/
def migrate_pages_to_section_files (db : Db) (ufs : UploadFS) (t : String) :
    Db × List FsOp :=
  let r := migrate_db db ufs
  if r.2 then save_db r.1 t else (r.1, [])

/-! ## Attachment archive import (no implementation under `src/`) -/

/-- Is `p` rooted under the directory `root` (a `root/`-prefixed path with no
`..` component, so it cannot escape the root)? -/
def isUnderRoot (root p : String) : Bool :=
  startsWithSeq (root ++ "/").data p.data && !((p.splitOn "/").contains "..")

/-- Modelled from the spec: the attachment archive import
(`importArchive(bytes)`, spec §4.3 and §6) has no implementation in
`app.py`; following the spec's words, each archive entry `(path, bytes)` is
extracted to the upload filesystem only when its path is rooted under the
expected attachment directory, and any entry that would escape that root is
skipped. -/
def archive_restore : List (String × List Nat) → UploadFS → UploadFS
  | [], ufs => ufs
  | e :: rest, ufs =>
      archive_restore rest
        (if isUnderRoot UPLOAD_DIR e.1 then
          (fun q => if q = e.1 then some e.2 else ufs q)
        else ufs)

/-! ## Concrete fixtures used by witnesses and counterexamples -/

/-- A concrete pre-save live document content. -/
def preContent : Jv := Jv.str "pre-save document"

/-- A filesystem whose live document holds `preContent`. -/
def fs0 : FS := fun p => if p = DB_PATH then some (FileData.jsonData preContent) else none

/-- A filesystem whose live document file holds text that does not parse. -/
def fsCorrupt : FS := fun p => if p = DB_PATH then some (FileData.rawData "not-json") else none

/-- An empty filesystem (no document file). -/
def fsEmptyW : FS := fun _ => none

/-- A concrete module for the rename witness. -/
def mW : Module := { id := "M1", title := "Module 1: Electrostatics", sections := some [] }

/-- A concrete section for the rename witness. -/
def sW : Sect := { id := "S1", title := "Kirchhoff", notes := some "", files := some [], pages := none }

/-- A section whose legacy `pages` key is present but holds an empty list. -/
def secEmptyPages : Sect :=
  { id := "S1", title := "Sec", notes := some "", files := some [], pages := some [] }

/-- A document holding just `secEmptyPages`. -/
def dbEmptyPages : Db :=
  { course := DEFAULT_DB.course
    modules := [{ id := "M9", title := "Mod", sections := some [secEmptyPages] }]
    version := some 2 }

/-- An empty upload filesystem. -/
def ufs0 : UploadFS := fun _ => none

/-- A concrete legacy page. -/
def pageW : Page := { title := some "P1", content := some "body", files := some [] }

/-- A section holding one legacy page. -/
def secWithPage : Sect :=
  { id := "S2", title := "Old", notes := none, files := none, pages := some [pageW] }

/-! ## Claim C1: atomicity of `save_db` -/

/-- **C1**, counterexample.  The claim says a save that fails before the
replace step leaves the live document unchanged.  But `save_db` has no
replace step at all: its very first filesystem operation truncates the live
path, so interrupting after one operation (a failure point containing no
replace) leaves the live document different from (indeed, emptier than) its
pre-save content. -/
theorem save_db_atomicity_counterexample :
    (((save_db DEFAULT_DB "2024-01-01 00:00").2.take 1).all (fun op => !isReplaceOp op)) = true ∧
    applyOps fs0 ((save_db DEFAULT_DB "2024-01-01 00:00").2.take 1) DB_PATH ≠ fs0 DB_PATH := by
  refine ⟨rfl, ?_⟩
  have h1 : applyOps fs0 ((save_db DEFAULT_DB "2024-01-01 00:00").2.take 1) DB_PATH
      = some (FileData.rawData "") := rfl
  have h2 : fs0 DB_PATH = some (FileData.jsonData preContent) := rfl
  rw [h1, h2]
  intro h
  exact FileData.noConfusion (Option.some.inj h)

/-- **C1**, amended.  `save_db` stamps `updated_at` and rewrites the live
document file in place: it truncates the live path on `open(..., "w")` and
then writes the full serialized document into it.  Both operations write
only the live path — there is no temporary file, no timestamped backup copy,
and no atomic replace — so a save interrupted after the open leaves the live
file empty rather than unchanged, while a completed save leaves the full
new document. -/
theorem save_db_in_place_rewrite (db : Db) (t : String) (fs : FS) :
    (save_db db t).1 = stampDb db t ∧
    (save_db db t).2 =
      [FsOp.truncate DB_PATH,
       FsOp.writeAll DB_PATH (FileData.jsonData (encodeDb (stampDb db t)))] ∧
    ((save_db db t).2.map opWrites).flatten = [DB_PATH, DB_PATH] ∧
    applyOps fs ((save_db db t).2.take 1) DB_PATH = some (FileData.rawData "") ∧
    applyOps fs (save_db db t).2 DB_PATH
      = some (FileData.jsonData (encodeDb (stampDb db t))) := by
  refine ⟨rfl, rfl, rfl, ?_, ?_⟩ <;>
    simp [save_db, applyOps, applyOp, setFs]

/-! ## Claim C2: `load_db` recovery -/

/-- **C2**, counterexample.  On a document file whose content does not parse
(here the text `"not-json"`), `load_db` raises the parse error to its caller
(`Except.error`, modelling the uncaught `json.JSONDecodeError`) instead of
archiving the file and returning a default document. -/
theorem load_db_corrupt_raises_counterexample :
    fsCorrupt DB_PATH = some (FileData.rawData "not-json") ∧
    load_db fsCorrupt "2024-01-01 00:00" = .error () := ⟨rfl, rfl⟩

/-- **C2**, amended.  `load_db` handles only the missing-file case: when no
document file exists it stamps, saves and returns the default document
(seeded with the five named modules `M0`–`M4`, all with empty section
lists); when the document file exists but its content is empty or corrupt
(does not parse), the parse error propagates to the caller and no archiving
or default-substitution takes place. -/
theorem load_db_recovery_amended :
    DEFAULT_DB.modules.map Module.id = ["M0", "M1", "M2", "M3", "M4"] ∧
    (DEFAULT_DB.modules.all (fun m => m.sections == some [])) = true ∧
    (∀ (fs : FS) (t : String), fs DB_PATH = none →
      load_db fs t
        = .ok (encodeDb (stampDb DEFAULT_DB t), (save_db (stampDb DEFAULT_DB t) t).2)) ∧
    (∀ (fs : FS) (t s : String), fs DB_PATH = some (FileData.rawData s) →
      load_db fs t = .error ()) := by
  refine ⟨rfl, rfl, ?_, ?_⟩
  · intro fs t h
    simp [load_db, h, save_db, stampDb]
  · intro fs t s h
    simp [load_db, h]

/-- **C2**, witness for the amended theorem: both branches at concrete
filesystems. -/
theorem load_db_recovery_amended_witness :
    load_db fsEmptyW "t0"
      = .ok (encodeDb (stampDb DEFAULT_DB "t0"), (save_db (stampDb DEFAULT_DB "t0") "t0").2) ∧
    load_db fsCorrupt "t0" = .error () :=
  ⟨load_db_recovery_amended.2.2.1 fsEmptyW "t0" rfl,
   load_db_recovery_amended.2.2.2 fsCorrupt "t0" "not-json" rfl⟩

/-! ## Claim C8: archive import path guard -/

/-- **C8** (spec-modelled).  Importing an attachment archive never writes any
path that is not rooted under the attachment directory: an entry whose path
would escape the root is skipped, so the upload filesystem is unchanged at
every such path. -/
theorem archive_restore_skips_escaping_entries (entries : List (String × List Nat))
    (ufs : UploadFS) (p : String) (h : isUnderRoot UPLOAD_DIR p = false) :
    archive_restore entries ufs p = ufs p := by
  induction entries generalizing ufs with
  | nil => rfl
  | cons e rest ih =>
      simp only [archive_restore]
      rw [ih]
      split
      · case isTrue he =>
          have hne : p ≠ e.1 := by
            intro hp
            rw [hp] at h
            rw [h] at he
            exact Bool.noConfusion he
          simp [hne]
      · rfl

/-- **C8**, witness: an archive holding a single traversal entry leaves the
upload filesystem unchanged at that entry's path. -/
theorem archive_restore_skips_escaping_entries_witness :
    archive_restore [("../../etc/passwd", [7])] (fun _ => none) "../../etc/passwd"
      = (fun _ => none : UploadFS) "../../etc/passwd" :=
  archive_restore_skips_escaping_entries [("../../etc/passwd", [7])] (fun _ => none)
    "../../etc/passwd" (by decide)

/-! ## Claim C9: rename never stores a blank title -/

/-- **C9**.  Renaming a module or section with a replacement string that is
empty (or whitespace-only, which strips to empty) leaves the record — in
particular its prior title — unchanged, and the rename operation never turns
a non-blank title into a blank one. -/
theorem rename_never_stores_blank (m : Module) (s : Sect) (tm ts : String) :
    (pyStrip tm = "" → rename_module_title m tm = m) ∧
    (m.title ≠ "" → (rename_module_title m tm).title ≠ "") ∧
    (pyStrip ts = "" → rename_section_title s ts = s) ∧
    (s.title ≠ "" → (rename_section_title s ts).title ≠ "") := by
  refine ⟨?_, ?_, ?_, ?_⟩
  · intro h
    cases m
    simp [rename_module_title, h]
  · intro h
    by_cases hc : pyStrip tm = "" <;> simp [rename_module_title, hc, h]
  · intro h
    cases s
    simp [rename_section_title, h]
  · intro h
    by_cases hc : pyStrip ts = "" <;> simp [rename_section_title, hc, h]

/-- **C9**, witness: empty and whitespace-only replacements at concrete
records. -/
theorem rename_never_stores_blank_witness :
    rename_module_title mW "  " = mW ∧
    (rename_module_title mW "  ").title ≠ "" ∧
    rename_section_title sW "" = sW ∧
    (rename_section_title sW "").title ≠ "" :=
  ⟨(rename_never_stores_blank mW sW "  " "").1 rfl,
   (rename_never_stores_blank mW sW "  " "").2.1 (by decide),
   (rename_never_stores_blank mW sW "  " "").2.2.1 rfl,
   (rename_never_stores_blank mW sW "  " "").2.2.2 (by decide)⟩

/-! ## Faithfulness of the JSON encoding (decoder round trips) -/

theorem decodeFileRec_encode (f : FileRec) : decodeFileRec (encodeFileRec f) = some f := by
  rcases f with ⟨n, p, sz, u, h⟩
  rcases n with _ | n <;> rcases p with _ | p <;> rcases sz with _ | sz <;>
    rcases u with _ | u <;> rcases h with _ | h <;> rfl

theorem decodeList_encode {A : Type} (f : Jv → Option A) (enc : A → Jv) (l : List A)
    (h : ∀ a ∈ l, f (enc a) = some a) :
    decodeList f (l.map enc) = some l := by
  induction l with
  | nil => rfl
  | cons a t ih =>
      simp only [List.map_cons, decodeList, h a (List.mem_cons_self a t),
        ih (fun b hb => h b (List.mem_cons_of_mem a hb)), Option.bind_some]
      rfl

theorem decodePage_encode (p : Page) : decodePage (encodePage p) = some p := by
  have hfl : ∀ l : List FileRec, decodeList decodeFileRec (l.map encodeFileRec) = some l :=
    fun l => decodeList_encode _ _ l (fun a _ => decodeFileRec_encode a)
  rcases p with ⟨t, c, fl⟩
  rcases fl with _ | fl
  · rcases t with _ | t <;> rcases c with _ | c <;> rfl
  · rcases t with _ | t <;> rcases c with _ | c <;>
      simp [encodePage, decodePage, encOptStr, getKey, decOptStr, hfl]

theorem decodeSect_encode (s : Sect) : decodeSect (encodeSect s) = some s := by
  have hfl : ∀ l : List FileRec, decodeList decodeFileRec (l.map encodeFileRec) = some l :=
    fun l => decodeList_encode _ _ l (fun a _ => decodeFileRec_encode a)
  have hpl : ∀ l : List Page, decodeList decodePage (l.map encodePage) = some l :=
    fun l => decodeList_encode _ _ l (fun a _ => decodePage_encode a)
  rcases s with ⟨i, t, no, fl, pg⟩
  rcases fl with _ | fl <;> rcases pg with _ | pg <;> rcases no with _ | no <;>
    simp [encodeSect, decodeSect, encOptStr, getKey, decOptStr, decStr, hfl, hpl]

theorem decodeModule_encode (m : Module) : decodeModule (encodeModule m) = some m := by
  have hsl : ∀ l : List Sect, decodeList decodeSect (l.map encodeSect) = some l :=
    fun l => decodeList_encode _ _ l (fun a _ => decodeSect_encode a)
  rcases m with ⟨i, t, ss⟩
  rcases ss with _ | ss <;> simp [encodeModule, decodeModule, getKey, decStr, hsl]

theorem decodeCourse_encode (c : Course) : decodeCourse (encodeCourse c) = some c := by
  rcases c with ⟨n, i, u⟩
  rcases u with _ | u <;> rfl

theorem decodeDb_encode (d : Db) : decodeDb (encodeDb d) = some d := by
  have hml : ∀ l : List Module, decodeList decodeModule (l.map encodeModule) = some l :=
    fun l => decodeList_encode _ _ l (fun a _ => decodeModule_encode a)
  rcases d with ⟨c, ms, v⟩
  rcases v with _ | v <;>
    simp [encodeDb, decodeDb, encOptInt, getKey, decOptInt, decodeCourse_encode, hml]

/-! ## Claim C4: save/reload round trip -/

/-- **C4**.  Saving a document and then reloading it yields exactly the
serialization of the saved document — the document equal to the original
field-for-field except `course.updated_at`, which `save_db` stamps with the
save time before writing.  The decoder round trip certifies that the
serialization determines the document uniquely (so "equal field-for-field"
is meaningful), and the reload performs no further filesystem operations. -/
theorem save_then_load_roundtrip (fs : FS) (db : Db) (t t' : String) :
    load_db (applyOps fs (save_db db t).2) t' = .ok (encodeDb (stampDb db t), []) ∧
    decodeDb (encodeDb (stampDb db t)) = some (stampDb db t) ∧
    stampDb db t = { db with course := { db.course with updated_at := some t } } := by
  refine ⟨?_, decodeDb_encode _, rfl⟩
  simp [save_db, applyOps, applyOp, setFs, load_db]

/-! ## Claims C3 and C6: the attachment store -/

theorem countWithHash_append (l1 l2 : List FileRec) (h : String) :
    countWithHash (l1 ++ l2) h = countWithHash l1 h + countWithHash l2 h := by
  simp [countWithHash, List.filter_append]

theorem countWithHash_eq_zero (l : List FileRec) (h : String)
    (hl : (l.any fun f => f.hash == some h) = false) : countWithHash l h = 0 := by
  simp only [List.any_eq_false] at hl
  simp only [countWithHash, List.length_eq_zero, List.filter_eq_nil_iff]
  exact hl

theorem upload_guard_false (l : List FileRec) (h : String)
    (hnew : ∀ f ∈ l, f.hash ≠ some h) :
    (l.any fun f => f.hash == some h) = false := by
  simp only [List.any_eq_false]
  intro f hf
  simpa using hnew f hf

/-- One store operation never pushes the number of records sharing any given
content hash above one (so sections with pairwise-distinct hashes keep them
pairwise distinct). -/
theorem upload_preserves_hash_bound (s0 : Sect) (d : List Nat) (n u t sd h : String)
    (hle : countWithHash (s0.files.getD []) h ≤ 1) :
    countWithHash ((save_upload_to_section s0 d n u t sd).sec.files.getD []) h ≤ 1 := by
  by_cases hdup : ((s0.files.getD []).any fun f => f.hash == some (file_sha256 d)) = true
  · simpa [save_upload_to_section, hdup] using hle
  · rcases hsf : s0.files with _ | l0
    · simp [save_upload_to_section, hsf] at hdup hle ⊢
      simpa [hdup] using hle
    · rw [hsf] at hdup
      have hg : (l0.any fun f => f.hash == some (file_sha256 d)) = false := by simpa using hdup
      have hle2 : countWithHash l0 h ≤ 1 := by simpa [hsf] using hle
      simp only [save_upload_to_section, hsf, Option.getD_some, hg, Bool.false_eq_true,
        if_false]
      rw [countWithHash_append]
      by_cases hh : h = file_sha256 d
      · subst hh
        rw [countWithHash_eq_zero l0 _ hg]
        simp [countWithHash]
      · have hz : ¬(file_sha256 d = h) := fun he => hh he.symm
        simp [countWithHash, hz]
        simpa [countWithHash] using hle2

/-- **C3**.  Storing the same byte content twice in a section (whose file
list does not already hold that content's hash) leaves exactly one
attachment record with that content hash: the first call saves, the second
call reports a duplicate, performs no disk write, returns no record, and
leaves the section exactly as the first call left it.  Moreover a single
store operation never creates a second record with the same content hash in
a section, so sections whose hashes are pairwise distinct stay that way. -/
theorem upload_dedup_by_content_hash (s : Sect) (l : List FileRec) (data : List Nat)
    (nm1 nm2 u1 u2 t1 t2 sd1 sd2 : String)
    (hf : s.files = some l)
    (hnew : ∀ f ∈ l, f.hash ≠ some (file_sha256 data)) :
    ((save_upload_to_section s data nm1 u1 t1 sd1).status = .saved ∧
     (save_upload_to_section (save_upload_to_section s data nm1 u1 t1 sd1).sec
        data nm2 u2 t2 sd2).status = .duplicate ∧
     (save_upload_to_section (save_upload_to_section s data nm1 u1 t1 sd1).sec
        data nm2 u2 t2 sd2).writes = [] ∧
     (save_upload_to_section (save_upload_to_section s data nm1 u1 t1 sd1).sec
        data nm2 u2 t2 sd2).meta = none ∧
     (save_upload_to_section (save_upload_to_section s data nm1 u1 t1 sd1).sec
        data nm2 u2 t2 sd2).sec = (save_upload_to_section s data nm1 u1 t1 sd1).sec ∧
     countWithHash
       ((save_upload_to_section (save_upload_to_section s data nm1 u1 t1 sd1).sec
          data nm2 u2 t2 sd2).sec.files.getD []) (file_sha256 data) = 1) ∧
    (∀ (s0 : Sect) (d : List Nat) (n u t sd h : String),
       countWithHash (s0.files.getD []) h ≤ 1 →
       countWithHash ((save_upload_to_section s0 d n u t sd).sec.files.getD []) h ≤ 1) := by
  refine ⟨?_, fun s0 d n u t sd h hle => upload_preserves_hash_bound s0 d n u t sd h hle⟩
  have hg := upload_guard_false l (file_sha256 data) hnew
  have hzero := countWithHash_eq_zero l (file_sha256 data) hg
  have h1 : (save_upload_to_section s data nm1 u1 t1 sd1).status = .saved := by
    simp [save_upload_to_section, hf, hg]
  have hms : (save_upload_to_section s data nm1 u1 t1 sd1).sec.files = some (l ++
      [{ name := some nm1
         path := some ((if sd1 == "" then UPLOAD_DIR else UPLOAD_DIR ++ "/" ++ sd1)
           ++ "/" ++ (u1 ++ pySuffix nm1))
         size := some (Int.ofNat data.length)
         uploaded_at := some t1
         hash := some (file_sha256 data) }]) := by
    simp [save_upload_to_section, hf, hg]
  have hdup2 : (((save_upload_to_section s data nm1 u1 t1 sd1).sec.files.getD []).any
      fun f => f.hash == some (file_sha256 data)) = true := by
    rw [hms]
    simp [List.any_append]
  have h2 : ∀ sx : Sect,
      ((sx.files.getD []).any fun f => f.hash == some (file_sha256 data)) = true →
      save_upload_to_section sx data nm2 u2 t2 sd2 =
      { sec := sx, meta := none, status := .duplicate, writes := [] } := by
    intro sx hx
    simp only [save_upload_to_section, hx, if_true]
  rw [h2 _ hdup2]
  refine ⟨h1, rfl, rfl, rfl, rfl, ?_⟩
  show countWithHash ((save_upload_to_section s data nm1 u1 t1 sd1).sec.files.getD [])
    (file_sha256 data) = 1
  rw [hms]
  simp only [Option.getD_some]
  rw [countWithHash_append, hzero]
  simp [countWithHash]

/-- **C3**, witness: a double store of the bytes `[1, 2]` into a concrete
empty section. -/
theorem upload_dedup_by_content_hash_witness :
    ((save_upload_to_section sW [1, 2] "a.txt" "u1" "t1" "S1").status = .saved ∧
     (save_upload_to_section (save_upload_to_section sW [1, 2] "a.txt" "u1" "t1" "S1").sec
        [1, 2] "b.txt" "u2" "t2" "S1").status = .duplicate ∧
     (save_upload_to_section (save_upload_to_section sW [1, 2] "a.txt" "u1" "t1" "S1").sec
        [1, 2] "b.txt" "u2" "t2" "S1").writes = [] ∧
     (save_upload_to_section (save_upload_to_section sW [1, 2] "a.txt" "u1" "t1" "S1").sec
        [1, 2] "b.txt" "u2" "t2" "S1").meta = none ∧
     (save_upload_to_section (save_upload_to_section sW [1, 2] "a.txt" "u1" "t1" "S1").sec
        [1, 2] "b.txt" "u2" "t2" "S1").sec
        = (save_upload_to_section sW [1, 2] "a.txt" "u1" "t1" "S1").sec ∧
     countWithHash
       ((save_upload_to_section (save_upload_to_section sW [1, 2] "a.txt" "u1" "t1" "S1").sec
          [1, 2] "b.txt" "u2" "t2" "S1").sec.files.getD []) (file_sha256 [1, 2]) = 1) ∧
    (∀ (s0 : Sect) (d : List Nat) (n u t sd h : String),
       countWithHash (s0.files.getD []) h ≤ 1 →
       countWithHash ((save_upload_to_section s0 d n u t sd).sec.files.getD []) h ≤ 1) :=
  upload_dedup_by_content_hash sW [] [1, 2] "a.txt" "b.txt" "u1" "u2" "t1" "t2" "S1" "S1"
    rfl (by simp)

/-- **C6**.  Storing bytes whose content hash is not yet in the section's
file list (with the per-section subdirectory named after the section, as
`edit_tools` passes it) writes the bytes once, at the path
`uploads/<section-id>/<generated-id><original-extension>`, appends exactly
one new attachment record carrying the original name, that storage path,
the byte size, the upload timestamp and the content hash, and returns a
"saved" outcome with that record. -/
theorem upload_saves_new_attachment (s : Sect) (l : List FileRec) (data : List Nat)
    (nm u t : String) (hf : s.files = some l)
    (hnew : ∀ f ∈ l, f.hash ≠ some (file_sha256 data)) (hid : s.id ≠ "") :
    save_upload_to_section s data nm u t s.id =
      { sec := { s with files := some (l ++
          [{ name := some nm
             path := some (UPLOAD_DIR ++ "/" ++ s.id ++ "/" ++ (u ++ pySuffix nm))
             size := some (Int.ofNat data.length)
             uploaded_at := some t
             hash := some (file_sha256 data) }]) }
        meta := some
          { name := some nm
            path := some (UPLOAD_DIR ++ "/" ++ s.id ++ "/" ++ (u ++ pySuffix nm))
            size := some (Int.ofNat data.length)
            uploaded_at := some t
            hash := some (file_sha256 data) }
        status := .saved
        writes := [(UPLOAD_DIR ++ "/" ++ s.id ++ "/" ++ (u ++ pySuffix nm), data)] } := by
  have hg := upload_guard_false l (file_sha256 data) hnew
  simp [save_upload_to_section, hf, hg, hid]

/-- **C6**, witness: storing the bytes `[1, 2]` as `a.txt` into a concrete
empty section. -/
theorem upload_saves_new_attachment_witness :
    save_upload_to_section sW [1, 2] "a.txt" "u1" "t1" sW.id =
      { sec := { sW with files := some ([] ++
          [{ name := some "a.txt"
             path := some (UPLOAD_DIR ++ "/" ++ sW.id ++ "/" ++ ("u1" ++ pySuffix "a.txt"))
             size := some (Int.ofNat ([1, 2] : List Nat).length)
             uploaded_at := some "t1"
             hash := some (file_sha256 [1, 2]) }]) }
        meta := some
          { name := some "a.txt"
            path := some (UPLOAD_DIR ++ "/" ++ sW.id ++ "/" ++ ("u1" ++ pySuffix "a.txt"))
            size := some (Int.ofNat ([1, 2] : List Nat).length)
            uploaded_at := some "t1"
            hash := some (file_sha256 [1, 2]) }
        status := .saved
        writes := [(UPLOAD_DIR ++ "/" ++ sW.id ++ "/" ++ ("u1" ++ pySuffix "a.txt"),
          ([1, 2] : List Nat))] } :=
  upload_saves_new_attachment sW [] [1, 2] "a.txt" "u1" "t1" rfl (by simp) (by decide)

/-! ## Claim C7: backup import validation -/

/-- **C7**.  The backup import replaces the live document only when the
uploaded bytes parse and Python's `in` reports both the `modules` and
`course` keys on the parsed value; bytes that fail to parse, and parsed
values on which either key test does not come out true, are rejected with a
reported message (failure or invalid-structure) while the current document
file is left untouched (no filesystem operation is performed). -/
theorem backup_import_guard (up : FileData) (t : String) :
    ((sidebar_backup_restore up t).2 = .imported →
      ∃ j, up = FileData.jsonData j ∧ pyContains "modules" j = some true ∧
        pyContains "course" j = some true) ∧
    (∀ s, up = FileData.rawData s →
      sidebar_backup_restore up t = ([], .importFailed)) ∧
    (∀ j, up = FileData.jsonData j →
      (pyContains "modules" j ≠ some true ∨ pyContains "course" j ≠ some true) →
      (sidebar_backup_restore up t).1 = [] ∧ (sidebar_backup_restore up t).2 ≠ .imported) := by
  refine ⟨?_, ?_, ?_⟩
  · intro h
    cases up with
    | rawData s => exact absurd h (by simp [sidebar_backup_restore])
    | jsonData j =>
        refine ⟨j, rfl, ?_⟩
        rcases hm : pyContains "modules" j with _ | bm
        · simp [sidebar_backup_restore, hm] at h
        · cases bm
          · simp [sidebar_backup_restore, hm] at h
          · rcases hc : pyContains "course" j with _ | bc
            · simp [sidebar_backup_restore, hm, hc] at h
            · cases bc
              · simp [sidebar_backup_restore, hm, hc] at h
              · exact ⟨rfl, rfl⟩
  · intro s hs
    subst hs
    rfl
  · intro j hj hbad
    subst hj
    rcases hm : pyContains "modules" j with _ | bm
    · simp [sidebar_backup_restore, hm]
    · cases bm
      · simp [sidebar_backup_restore, hm]
      · rcases hc : pyContains "course" j with _ | bc
        · simp [sidebar_backup_restore, hm, hc]
        · cases bc
          · simp [sidebar_backup_restore, hm, hc]
          · rcases hbad with hb | hb
            · exact absurd hm hb
            · exact absurd hc hb

/-- **C7**, witness: a successful replacement, a parse failure, and a parsed
value missing the `course` key, at concrete inputs. -/
theorem backup_import_guard_witness :
    (∃ j, FileData.jsonData (Jv.obj [("modules", Jv.arr []), ("course", Jv.obj [])])
        = FileData.jsonData j ∧ pyContains "modules" j = some true ∧
        pyContains "course" j = some true) ∧
    sidebar_backup_restore (FileData.rawData "not json") "t0" = ([], .importFailed) ∧
    ((sidebar_backup_restore (FileData.jsonData (Jv.obj [("modules", Jv.arr [])])) "t0").1 = [] ∧
     (sidebar_backup_restore (FileData.jsonData (Jv.obj [("modules", Jv.arr [])])) "t0").2
       ≠ .imported) :=
  ⟨(backup_import_guard
      (FileData.jsonData (Jv.obj [("modules", Jv.arr []), ("course", Jv.obj [])])) "t0").1 rfl,
   (backup_import_guard (FileData.rawData "not json") "t0").2.1 "not json" rfl,
   (backup_import_guard (FileData.jsonData (Jv.obj [("modules", Jv.arr [])])) "t0").2.2
     (Jv.obj [("modules", Jv.arr [])]) rfl (Or.inr (by decide))⟩

/-! ## Claims C5 and C10: the legacy-page migration -/

/-- Re-running the section migration on an already-migrated section changes
nothing and reports no change. -/
theorem migrate_section_idem (ufs : UploadFS) (s : Sect) :
    migrate_section ufs (migrate_section ufs s).1 = ((migrate_section ufs s).1, false) := by
  rcases s with ⟨i, t, no, fl, pg⟩
  rcases pg with _ | pg
  · rcases fl with _ | fl <;> rcases no with _ | no <;> simp [migrate_section]
  · rcases pg with _ | ⟨p, ps⟩
    · rcases fl with _ | fl <;> rcases no with _ | no <;> simp [migrate_section]
    · rcases fl with _ | fl <;> rcases no with _ | no <;> simp [migrate_section]

theorem migrate_module_idem (ufs : UploadFS) (m : Module) :
    migrate_module ufs (migrate_module ufs m).1 = ((migrate_module ufs m).1, false) := by
  rcases m with ⟨i, t, ss⟩
  rcases ss with _ | ss
  · rfl
  · simp only [migrate_module, List.map_map]
    have h1 : List.map (Prod.fst ∘ migrate_section ufs ∘ Prod.fst ∘ migrate_section ufs) ss
        = List.map (Prod.fst ∘ migrate_section ufs) ss :=
      List.map_congr_left (fun s _ => by
        simp only [Function.comp_apply, migrate_section_idem])
    have h2 : (List.map (migrate_section ufs ∘ Prod.fst ∘ migrate_section ufs) ss).any Prod.snd
        = false := by
      apply List.any_eq_false.mpr
      intro x hx
      rcases List.mem_map.mp hx with ⟨s, hs, rfl⟩
      simp [Function.comp, migrate_section_idem]
    rw [h1, h2]

theorem migrate_db_idem (db : Db) (ufs : UploadFS) :
    migrate_db (migrate_db db ufs).1 ufs = ((migrate_db db ufs).1, false) := by
  rcases db with ⟨c, ms, v⟩
  simp only [migrate_db, List.map_map]
  have h1 : List.map (Prod.fst ∘ migrate_module ufs ∘ Prod.fst ∘ migrate_module ufs) ms
      = List.map (Prod.fst ∘ migrate_module ufs) ms :=
    List.map_congr_left (fun m _ => by
      simp only [Function.comp_apply, migrate_module_idem])
  have h2 : (List.map (migrate_module ufs ∘ Prod.fst ∘ migrate_module ufs) ms).any Prod.snd
      = false := by
    apply List.any_eq_false.mpr
    intro x hx
    rcases List.mem_map.mp hx with ⟨m, hm, rfl⟩
    simp [Function.comp, migrate_module_idem]
  rw [h1, h2]

/-- Stamping `updated_at` commutes with the in-memory migration (the
migration never looks at the course). -/
theorem migrate_db_stamp (db : Db) (ufs : UploadFS) (t : String) :
    migrate_db (stampDb db t) ufs
      = (stampDb (migrate_db db ufs).1 t, (migrate_db db ufs).2) := rfl

/-- **C5**, counterexample to the claim's "because" clause.  After one run of
the migration on a document whose only section carries a present-but-empty
`pages` list, that section still has the legacy `pages` field (the `continue`
on a falsy pages list skips the `pop`), so the field is not absent from every
Section after the first run. -/
theorem migration_pages_not_absent_counterexample :
    ((migrate_pages_to_section_files dbEmptyPages ufs0 "t0").1.modules.map
      (fun m => (m.sections.getD []).map (fun s => s.pages.isNone))) = [[false]] := rfl

/-- **C5**, amended.  The migration is idempotent: running it a second time
returns the exact document the first run produced and performs no
filesystem operation — but not because the legacy `pages` field is absent
from every Section after the first run (a present-but-empty `pages` list
survives); rather, every remaining `pages` value is empty and is skipped. -/
theorem migration_idempotent (db : Db) (ufs : UploadFS) (t t' : String) :
    migrate_pages_to_section_files (migrate_pages_to_section_files db ufs t).1 ufs t' =
      ((migrate_pages_to_section_files db ufs t).1, []) := by
  have hidem := migrate_db_idem db ufs
  unfold migrate_pages_to_section_files
  by_cases hch : (migrate_db db ufs).2 = true
  · simp only [hch, if_true]
    have hfst : (save_db (migrate_db db ufs).1 t).1 = stampDb (migrate_db db ufs).1 t := rfl
    rw [hfst]
    rw [migrate_db_stamp, hidem]
    simp
  · simp only [Bool.not_eq_true] at hch
    simp only [hch, Bool.false_eq_true, if_false]
    rw [hidem]
    simp

/-- A section that went through the migration has a `files` list, a `notes`
string, and a `pages` field that is either absent or an empty leftover. -/
theorem migrate_section_shape (ufs : UploadFS) (s0 : Sect) :
    ((migrate_section ufs s0).1).files.isSome ∧ ((migrate_section ufs s0).1).notes.isSome ∧
    (((migrate_section ufs s0).1).pages = none ∨ ((migrate_section ufs s0).1).pages = some []) := by
  rcases s0 with ⟨i, t, no, fl, pg⟩
  rcases pg with _ | pg
  · rcases fl with _ | fl <;> rcases no with _ | no <;> simp [migrate_section]
  · rcases pg with _ | ⟨p, ps⟩
    · rcases fl with _ | fl <;> rcases no with _ | no <;> simp [migrate_section]
    · rcases fl with _ | fl <;> rcases no with _ | no <;> simp [migrate_section]

/-- **C10**, counterexample.  On a document whose only section has a
present-but-empty `pages` list, the migration changes nothing and reports
no change, leaving that section with its `pages` key — so it is not the case
that no section has a `pages` key after migration. -/
theorem migration_leaves_pages_key_counterexample :
    migrate_pages_to_section_files dbEmptyPages ufs0 "t0" = (dbEmptyPages, []) ∧
    dbEmptyPages.modules.map (fun m => (m.sections.getD []).map Sect.pages) = [[some []]] :=
  ⟨rfl, rfl⟩

/-- **C10**, amended.  After the migration runs, every section of the
resulting document has a `files` list and a `notes` string (created as empty
when the keys were missing), and its `pages` field is either gone or a
leftover empty list; a section whose `pages` list was nonempty always has
the field removed. -/
theorem migration_ensures_shape (db : Db) (ufs : UploadFS) (t : String) :
    (∀ m ∈ (migrate_pages_to_section_files db ufs t).1.modules,
       ∀ ss, m.sections = some ss →
       ∀ s ∈ ss, s.files.isSome ∧ s.notes.isSome ∧ (s.pages = none ∨ s.pages = some [])) ∧
    (∀ s1 : Sect, s1.pages.getD [] ≠ [] → ((migrate_section ufs s1).1).pages = none) := by
  constructor
  · intro m hm ss hss s hs
    have hmods : (migrate_pages_to_section_files db ufs t).1.modules
        = (migrate_db db ufs).1.modules := by
      unfold migrate_pages_to_section_files
      by_cases hch : (migrate_db db ufs).2 = true <;> simp [hch, save_db, stampDb]
    rw [hmods] at hm
    simp only [migrate_db, List.map_map] at hm
    rcases List.mem_map.mp hm with ⟨m0, hm0, rfl⟩
    rcases m0 with ⟨i0, t0, ss0⟩
    rcases ss0 with _ | ss0
    · simp [migrate_module] at hss
    · simp only [Function.comp_apply, migrate_module, List.map_map] at hss
      obtain rfl := Option.some.inj hss
      rcases List.mem_map.mp hs with ⟨s0, hs0, rfl⟩
      exact migrate_section_shape ufs s0
  · intro s1 hne
    rcases s1 with ⟨i, tt, no, fl, pg⟩
    rcases pg with _ | pg
    · simp at hne
    · rcases pg with _ | ⟨p, ps⟩
      · simp at hne
      · rcases fl with _ | fl <;> rcases no with _ | no <;> simp [migrate_section]

/-- **C10**, witness for the amended theorem: the concrete migrated section
with an empty leftover `pages` list satisfies the shape, and migrating a
section with a nonempty page list removes the `pages` field. -/
theorem migration_ensures_shape_witness :
    (secEmptyPages.files.isSome ∧ secEmptyPages.notes.isSome ∧
      (secEmptyPages.pages = none ∨ secEmptyPages.pages = some [])) ∧
    ((migrate_section ufs0 secWithPage).1).pages = none :=
  ⟨(migration_ensures_shape dbEmptyPages ufs0 "t0").1
      { id := "M9", title := "Mod", sections := some [secEmptyPages] } (by decide)
      [secEmptyPages] rfl secEmptyPages (by decide),
   (migration_ensures_shape dbEmptyPages ufs0 "t0").2 secWithPage (by decide)⟩

end Phy132
